import Mathlib

/-!
# Verification of the `ruptime` core (src/main.rs)

Shallow embedding of the core functions of the `ruptime` program:

* `get_uptime`       — src/main.rs lines 107–114 (the spec's `parse_uptime`)
* `build_uptime_string` / `format_uptime` — lines 74–104 (the spec's `format_uptime`)
* `get_loadavg`      — lines 117–127 (the spec's `parse_loadavg`)
* `get_no_users` / `count_sessions` — lines 142–158 (the spec's `count_sessions`)

Modelling conventions:

* Rust byte buffers are `List Nat`; out-of-bounds indexing (a Rust panic)
  is modelled by `Option`, with `none` for the panic.
* Rust `str::split_whitespace` is modelled over the ASCII whitespace
  characters recognised by `Char.isWhitespace` (the inputs of interest are
  ASCII).
* Rust `str::parse::<f64>` is modelled by `parse_f64`: the f64 grammar
  (sign, digits, optional fraction, optional exponent, and the
  case-insensitive `inf`/`infinity`/`nan` literals), with the decimal value
  rounded to the nearest IEEE-754 binary64 value (round half to even,
  subnormals and overflow to infinity included).  An `F64` value is the
  exact rational value of the resulting double (every finite double is an
  exact rational with a power-of-two denominator), or an infinity or NaN.
  Rust `as i64` on a float saturates to the i64 range (`f64_to_i64`).
* `chrono::Duration::seconds` (line 113) panics when the seconds value
  lies outside ±(i64::MAX milliseconds); `Duration_seconds` models the
  panic as `none`, and `get_uptime` surfaces it as
  `UptimeResult.panicked`, distinct from the `?` parse-error return
  (`UptimeResult.parseError`).  A constructed duration is modelled by its
  signed number of seconds; the truncating i64 divisions inside
  `num_days`/`num_hours`/`num_minutes` are `Int.tdiv`.
-/

/-! ## Whitespace tokenisation (model of Rust `str::split_whitespace`) -/

/-- Accumulating splitter: `splitWsAux cs cur` scans `cs`, `cur` holding the
current in-progress token in reverse. -/
def splitWsAux : List Char → List Char → List (List Char)
  | [], [] => []
  | [], cur => [cur.reverse]
  | c :: cs, cur =>
    if c.isWhitespace then
      match cur with
      | [] => splitWsAux cs []
      | _ => cur.reverse :: splitWsAux cs []
    else splitWsAux cs (c :: cur)

/-- Model of Rust `str::split_whitespace`: the maximal non-whitespace runs
of the string, in order. -/
def splitWhitespace (s : String) : List String :=
  (splitWsAux s.toList []).map String.mk

/-- `read_data.split_whitespace().take(1).collect::<String>()` from
`get_uptime` (src/main.rs line 108): the first token, or `""` if none. -/
def firstToken (s : String) : String :=
  String.join ((splitWhitespace s).take 1)

/-! ## Model of Rust `str::parse::<f64>` (finite decimal grammar) -/

/-- Numeric value of a decimal digit character. -/
def digitVal (c : Char) : Nat := c.toNat - 48

/-- Split a leading run of decimal digits off a character list. -/
def readDigits : List Char → List Nat × List Char
  | [] => ([], [])
  | c :: cs =>
    if c.isDigit then
      let (ds, rest) := readDigits cs
      (digitVal c :: ds, rest)
    else ([], c :: cs)

/-- Value of a digit list read in base 10. -/
def digitsToNat (ds : List Nat) : Nat :=
  ds.foldl (fun acc d => acc * 10 + d) 0

/-- Strip an optional leading sign; `true` means negative. -/
def readSign : List Char → Bool × List Char
  | '-' :: cs => (true, cs)
  | '+' :: cs => (false, cs)
  | cs => (false, cs)

/-- Parse the optional exponent suffix (`e`/`E`, optional sign, digits, end
of input).  `some 0` on empty input (no exponent present). -/
def readExponent : List Char → Option Int
  | [] => some 0
  | c :: cs =>
    if c = 'e' ∨ c = 'E' then
      let (negE, cs1) := readSign cs
      let (ds, rest) := readDigits cs1
      if ds = [] ∨ rest ≠ [] then none
      else some (if negE then -(digitsToNat ds : Int) else (digitsToNat ds : Int))
    else none

/-- Number of binary digits of a natural number, with explicit structural
fuel so that it evaluates by kernel reduction. -/
def bitLenAux : Nat → Nat → Nat
  | 0, _ => 0
  | fuel + 1, n => if n = 0 then 0 else bitLenAux fuel (n / 2) + 1

/-- Number of binary digits: `2 ^ (bitLen n - 1) ≤ n < 2 ^ bitLen n` for
positive `n`. -/
def bitLen (n : Nat) : Nat := bitLenAux n n

/-- Whether `b * 2 ^ k ≤ a`, for a signed shift `k`. -/
def geShift (a b : Nat) (k : Int) : Bool :=
  if 0 ≤ k then decide (b * 2 ^ k.toNat ≤ a) else decide (b ≤ a * 2 ^ (-k).toNat)

/-- The binary exponent of a positive rational `a / b`: the `E` with
`2 ^ E ≤ a / b < 2 ^ (E + 1)`. -/
def ratLog2 (a b : Nat) : Int :=
  let d : Int := (bitLen a : Int) - (bitLen b : Int)
  if geShift a b d then d else d - 1

/-- Multiply the fraction `a / b` by `2 ^ k` for a signed `k`. -/
def shiftPair (a b : Nat) (k : Int) : Nat × Nat :=
  if 0 ≤ k then (a * 2 ^ k.toNat, b) else (a, b * 2 ^ (-k).toNat)

/-- Round the fraction `a / b` to the nearest integer, ties to even. -/
def roundHalfEven (a b : Nat) : Nat :=
  let q := a / b
  let r := a % b
  if 2 * r < b then q
  else if b < 2 * r then q + 1
  else if q % 2 = 0 then q else q + 1

/-- Round the positive rational `a / b` to the nearest IEEE-754 binary64
value (round half to even, subnormals included), returning the exact value
of the resulting double as a numerator/denominator pair with a
power-of-two denominator, or `none` for overflow to infinity. -/
def roundPosF64 (a b : Nat) : Option (Nat × Nat) :=
  if a = 0 then some (0, 1)
  else
    let E := ratLog2 a b
    if 1023 < E then none
    else if E < -1022 then
      let p := shiftPair a b 1074
      some (roundHalfEven p.1 p.2, 2 ^ 1074)
    else
      let p := shiftPair a b (52 - E)
      let S := roundHalfEven p.1 p.2
      if S = 2 ^ 53 ∧ E = 1023 then none
      else if 52 ≤ E then some (S * 2 ^ (E - 52).toNat, 1)
      else some (S, 2 ^ ((52 : Int) - E).toNat)

/-- An IEEE-754 binary64 value as Rust's parser produces it: a finite
double carried as its exact rational value (power-of-two denominator), an
infinity, or NaN. -/
inductive F64 where
  | finite (num : Int) (den : Nat)
  | inf
  | negInf
  | nan
deriving DecidableEq, Repr

/-- ASCII lower-casing of a character list, for the case-insensitive
`inf`/`infinity`/`nan` literals. -/
def toLowerList (cs : List Char) : List Char := cs.map Char.toLower

/-- Model of Rust `str::parse::<f64>`: optional sign, then either a
case-insensitive `inf`/`infinity`/`nan` literal or digits with optional
fraction and exponent, the whole token consumed; the decimal value is
rounded to the nearest binary64 value. -/
def parse_f64 (s : String) : Option F64 :=
  let p1 := readSign s.toList
  if toLowerList p1.2 = ['i', 'n', 'f'] ∨
      toLowerList p1.2 = ['i', 'n', 'f', 'i', 'n', 'i', 't', 'y'] then
    some (if p1.1 then F64.negInf else F64.inf)
  else if toLowerList p1.2 = ['n', 'a', 'n'] then
    some F64.nan
  else
    let p2 := readDigits p1.2
    let p3 := match p2.2 with
      | '.' :: rest => readDigits rest
      | _ => ([], p2.2)
    if p2.1 = [] ∧ p3.1 = [] then none
    else
      match readExponent p3.2 with
      | none => none
      | some e =>
        let m : Nat := digitsToNat (p2.1 ++ p3.1)
        let a : Nat := m * 10 ^ (e - p3.1.length).toNat
        let b : Nat := 10 ^ ((p3.1.length : Int) - e).toNat
        match roundPosF64 a b with
        | none => some (if p1.1 then F64.negInf else F64.inf)
        | some pq =>
          some (F64.finite (if p1.1 then -(pq.1 : Int) else (pq.1 : Int)) pq.2)

/-- Rust `as i64` applied to an f64: truncation toward zero saturating to
the i64 range; infinities clamp to the end points and NaN gives 0.  On the
exact value `n / d` of a finite double the truncation is `Int.tdiv`. -/
def f64_to_i64 : F64 → Int
  | F64.finite n d => max (-(2 ^ 63)) (min (2 ^ 63 - 1) (Int.tdiv n d))
  | F64.inf => 2 ^ 63 - 1
  | F64.negInf => -(2 ^ 63)
  | F64.nan => 0

/-- The largest whole-second value accepted by `chrono::Duration::seconds`:
`i64::MAX / 1000` (the chrono `Duration` bounds are ±(i64::MAX
milliseconds)). -/
def CHRONO_MAX_SECS : Int := 9223372036854775

/-- `chrono::Duration::seconds` (called at src/main.rs line 113): `none`
models the out-of-bounds panic, otherwise the duration with the given
number of whole seconds. -/
def Duration_seconds (secs : Int) : Option Int :=
  if secs < -CHRONO_MAX_SECS ∨ CHRONO_MAX_SECS < secs then none
  else some secs

/-- Outcome of `get_uptime`: the `?` error return on a failed parse, a
panic inside `chrono::Duration::seconds`, or the resulting duration's
seconds. -/
inductive UptimeResult where
  | ok (secs : Int)
  | parseError
  | panicked
deriving DecidableEq, Repr

/-- `get_uptime` (src/main.rs lines 107–114): take the first
whitespace-delimited token, parse it as f64 (`?` on failure), cast to i64
with `as`, and build the `chrono::Duration` (panicking when out of
bounds). -/
def get_uptime (read_data : String) : UptimeResult :=
  match parse_f64 (firstToken read_data) with
  | none => UptimeResult.parseError
  | some v =>
    match Duration_seconds (f64_to_i64 v) with
    | none => UptimeResult.panicked
    | some secs => UptimeResult.ok secs

/-! ## Elapsed-time decomposition (src/main.rs lines 76–80) -/

/-- `uptime.num_days()`: seconds divided by 86400, i64 division truncating
toward zero. -/
def uptime_days (secs : Int) : Int := Int.tdiv secs 86400

/-- `uptime.num_hours() - Duration::days(days).num_hours()`. -/
def uptime_hours (secs : Int) : Int :=
  Int.tdiv secs 3600 - uptime_days secs * 24

/-- `uptime.num_minutes() - Duration::hours(hours).num_minutes()
- Duration::days(days).num_minutes()`. -/
def uptime_minutes (secs : Int) : Int :=
  Int.tdiv secs 60 - uptime_hours secs * 60 - uptime_days secs * 1440

/-! ## Uptime formatting (src/main.rs lines 66–104) -/

/-- The `UptimeFormat` enum.  `Normal` is the spec's `Compact`, `Pretty`
the spec's `Verbose`. -/
inductive UptimeFormat where
  | Normal
  | Pretty
deriving DecidableEq, Repr

/-- The spec's ElapsedTime record (days / hours / minutes). -/
structure ElapsedTime where
  days : Int
  hours : Int
  minutes : Int
deriving DecidableEq, Repr

/-- Rust format specifier `{:0>2}`: pad on the left with `'0'` to width 2. -/
def pad2 (s : String) : String :=
  if s.length < 2 then String.mk (List.replicate (2 - s.length) '0') ++ s else s

/-- The day part of `build_uptime_string` (src/main.rs lines 82–85):
`"<days> day, "` / `"<days> days, "` when `days > 0`, empty otherwise. -/
def days_part (days : Int) : String :=
  if days > 0 then
    toString days ++ " " ++ (if days = 1 then "day, " else "days, ")
  else ""

/-- The hours/minutes phrase of `build_uptime_string`
(src/main.rs lines 87–101). -/
def hm_phrase (t : ElapsedTime) (kind : UptimeFormat) : String :=
  if kind = UptimeFormat.Normal then
    if t.hours = 0 then toString t.minutes ++ " min"
    else toString t.hours ++ ":" ++ pad2 (toString t.minutes)
  else
    if t.hours = 0 then toString t.minutes ++ " minutes"
    else toString t.hours ++ " hours, " ++ toString t.minutes ++ " minutes"

/-- The rendering part of `build_uptime_string` (src/main.rs lines 82–103),
the spec's `format_uptime(ElapsedTime, UptimeFormat)`. -/
def format_uptime (t : ElapsedTime) (kind : UptimeFormat) : String :=
  days_part t.days ++ hm_phrase t kind

/-- `build_uptime_string` (src/main.rs lines 74–104) on the seconds value
of the `chrono::Duration` argument. -/
def build_uptime_string (secs : Int) (kind : UptimeFormat) : String :=
  format_uptime ⟨uptime_days secs, uptime_hours secs, uptime_minutes secs⟩ kind

/-! ## Load average (src/main.rs lines 117–127) -/

/-- `get_loadavg` (src/main.rs lines 117–127): first three tokens joined
with `", "`.  The unchecked `load[0]`/`load[1]`/`load[2]` indexing panics
when fewer than three tokens exist; the panic is modelled by `none`. -/
def get_loadavg (read_data : String) : Option String :=
  let load := (splitWhitespace read_data).take 3
  match load.get? 0, load.get? 1, load.get? 2 with
  | some a, some b, some c => some (a ++ ", " ++ b ++ ", " ++ c)
  | _, _, _ => none

/-! ## Session counting (src/main.rs lines 141–158) -/

/-- Size of a utmp record (src/main.rs line 6). -/
def UTMP_SIZE : Nat := 384

/-- The counting loop of `get_no_users` (src/main.rs lines 143–151):
for `i` in `0..(buf.len() / UTMP_SIZE)`, increment when
`buf[i * UTMP_SIZE] == 7`.  The indexing `buf[_]` panics when out of
bounds; the panic is modelled by `none`. -/
def count_sessions (buf : List Nat) : Option Nat :=
  (List.range (buf.length / UTMP_SIZE)).foldlM
    (fun count i =>
      (buf.get? (i * UTMP_SIZE)).map fun b => if b = 7 then count + 1 else count)
    0

/-- The rendering tail of `get_no_users` (src/main.rs lines 153–157):
`"{} users"` when `count > 1`, else `"{} user"`. -/
def render_users (count : Nat) : String :=
  if count > 1 then toString count ++ " users" else toString count ++ " user"

/-- `get_no_users` (src/main.rs lines 142–158): count then render. -/
def get_no_users (buf : List Nat) : Option String :=
  (count_sessions buf).map render_users

/-- Exact 384-byte chunking, per the spec's words: "The buffer is
partitioned into consecutive fixed-size chunks of exactly 384 bytes; a
trailing partial chunk is silently ignored." -/
def chunksOf (n : Nat) (l : List Nat) : List (List Nat) :=
  if h : 0 < n ∧ n ≤ l.length then
    l.take n :: chunksOf n (l.drop n)
  else []
termination_by l.length
decreasing_by
  simp only [List.length_drop]
  omega

/-- The session count as the spec words it: the number of full 384-byte
chunks whose byte at offset 0 equals 7. -/
def count_sessions_spec (buf : List Nat) : Nat :=
  (chunksOf UTMP_SIZE buf).countP fun c => c.head? == some 7

/-- Index-based restatement of the session count used as a stepping stone
between the loop and the chunk view. -/
def count_sessions_idx (buf : List Nat) : Nat :=
  (List.range (buf.length / UTMP_SIZE)).countP fun i =>
    buf.get? (i * UTMP_SIZE) == some 7

/-! ## Session-counting lemmas -/

/-- The loop body of `count_sessions` never goes out of bounds and computes
the index-based count, for any in-bounds index list and accumulator. -/
lemma count_sessions_foldlM (buf : List Nat) :
    ∀ (is : List Nat) (c : Nat),
      (∀ i ∈ is, i * UTMP_SIZE < buf.length) →
      is.foldlM
        (fun count i =>
          (buf.get? (i * UTMP_SIZE)).map fun b => if b = 7 then count + 1 else count)
        c
      = some (c + is.countP fun i => buf.get? (i * UTMP_SIZE) == some 7) := by
  intro is
  induction is with
  | nil => intro c _; simp
  | cons i is ih =>
    intro c hb
    have hi : i * UTMP_SIZE < buf.length := hb i (List.mem_cons_self i is)
    obtain ⟨b, hbv⟩ : ∃ b, buf.get? (i * UTMP_SIZE) = some b :=
      ⟨buf.get ⟨_, hi⟩, List.get?_eq_get hi⟩
    have hrest : ∀ j ∈ is, j * UTMP_SIZE < buf.length :=
      fun j hj => hb j (List.mem_cons_of_mem i hj)
    simp only [List.foldlM_cons, hbv, Option.map_some', Option.bind_eq_bind,
      Option.some_bind]
    rw [ih _ hrest, List.countP_cons, hbv]
    by_cases h7 : b = 7 <;> simp [h7] <;> omega

/-- `count_sessions` always succeeds with the index-based count. -/
lemma count_sessions_eq_idx (buf : List Nat) :
    count_sessions buf = some (count_sessions_idx buf) := by
  unfold count_sessions count_sessions_idx
  rw [count_sessions_foldlM]
  · simp
  · intro i hi
    rw [List.mem_range] at hi
    simp only [UTMP_SIZE] at *
    omega

/-- One step of the index-based count when a full record is present. -/
lemma count_sessions_idx_step (buf : List Nat) (h384 : UTMP_SIZE ≤ buf.length) :
    count_sessions_idx buf
      = count_sessions_idx (buf.drop UTMP_SIZE)
        + (if buf.head? == some 7 then 1 else 0) := by
  unfold count_sessions_idx
  have hq : buf.length / UTMP_SIZE = (buf.drop UTMP_SIZE).length / UTMP_SIZE + 1 := by
    simp only [List.length_drop, UTMP_SIZE] at *
    omega
  rw [hq, List.range_succ_eq_map, List.countP_cons, List.countP_map]
  have harg : ∀ i : Nat,
      ((fun i => buf.get? (i * UTMP_SIZE) == some 7) ∘ Nat.succ) i
        = ((buf.drop UTMP_SIZE).get? (i * UTMP_SIZE) == some 7) := by
    intro i
    have hidx : Nat.succ i * UTMP_SIZE = UTMP_SIZE + i * UTMP_SIZE := by
      simp only [UTMP_SIZE]
      omega
    simp only [Function.comp_apply, List.get?_drop, hidx]
  rw [List.countP_congr fun i _ => by rw [harg i]]
  simp only [Nat.zero_mul, List.get?_zero]

/-- One step of the chunk-based count when a full record is present. -/
lemma count_sessions_spec_step (buf : List Nat) (h384 : UTMP_SIZE ≤ buf.length) :
    count_sessions_spec buf
      = count_sessions_spec (buf.drop UTMP_SIZE)
        + (if buf.head? == some 7 then 1 else 0) := by
  unfold count_sessions_spec
  rw [chunksOf, dif_pos ⟨by simp [UTMP_SIZE], h384⟩, List.countP_cons]
  have hhead : (buf.take UTMP_SIZE).head? = buf.head? := by
    cases buf with
    | nil => rfl
    | cons a t => rfl
  rw [hhead]

/-- The loop's count agrees with the spec's chunk count (fuel recursion on
the length). -/
lemma count_sessions_idx_eq_spec_fuel :
    ∀ (fuel : Nat) (buf : List Nat), buf.length ≤ fuel →
      count_sessions_idx buf = count_sessions_spec buf := by
  intro fuel
  induction fuel with
  | zero =>
    intro buf h
    have hb : buf = [] := List.length_eq_zero.mp (by omega)
    subst hb
    have hnc : ¬(0 < UTMP_SIZE ∧ UTMP_SIZE ≤ ([] : List Nat).length) := by
      simp [UTMP_SIZE]
    unfold count_sessions_idx count_sessions_spec
    rw [chunksOf, dif_neg hnc]
    rfl
  | succ n ih =>
    intro buf h
    by_cases h384 : UTMP_SIZE ≤ buf.length
    · rw [count_sessions_idx_step buf h384, count_sessions_spec_step buf h384,
        ih (buf.drop UTMP_SIZE) (by simp only [List.length_drop, UTMP_SIZE] at *; omega)]
    · have hnc : ¬(0 < UTMP_SIZE ∧ UTMP_SIZE ≤ buf.length) := fun hc => h384 hc.2
      have h0 : buf.length / UTMP_SIZE = 0 := by
        simp only [UTMP_SIZE] at *
        omega
      unfold count_sessions_idx count_sessions_spec
      rw [h0, chunksOf, dif_neg hnc]
      rfl

/-- The loop's count agrees with the spec's chunk count. -/
lemma count_sessions_idx_eq_spec (buf : List Nat) :
    count_sessions_idx buf = count_sessions_spec buf :=
  count_sessions_idx_eq_spec_fuel buf.length buf le_rfl

/-! ## Claim C1 -/

set_option maxRecDepth 100000 in
/-- C1: for every byte buffer, the session count equals the number of full
consecutive 384-byte chunks whose byte at offset 0 equals 7; a trailing
partial chunk is ignored and causes no error.  A 384-byte buffer with byte
0 == 7 yields 1, with byte 0 == 0 yields 0, and a 400-byte buffer is
counted from its first chunk only (the 16-byte tail never contributes). -/
theorem C1_count_sessions_chunks :
    (∀ buf : List Nat, count_sessions buf = some (count_sessions_spec buf)) ∧
    count_sessions (7 :: List.replicate 383 0) = some 1 ∧
    count_sessions (0 :: List.replicate 383 0) = some 0 ∧
    count_sessions ((7 :: List.replicate 383 0) ++ 7 :: List.replicate 15 0) = some 1 ∧
    count_sessions ((0 :: List.replicate 383 0) ++ 7 :: List.replicate 15 0) = some 0 := by
  refine ⟨fun buf => ?_, by decide, by decide, by decide, by decide⟩
  rw [count_sessions_eq_idx, count_sessions_idx_eq_spec]

/-! ## Claim C10 -/

/-- C10: `count_sessions` (and hence `get_no_users`) is total and
panic-free on every buffer of every length: it always returns a value, and
every index `i * UTMP_SIZE` it reads with `i < buf.length / UTMP_SIZE` is
strictly within bounds. -/
theorem C10_count_sessions_total :
    (∀ buf : List Nat, ∃ n,
        count_sessions buf = some n ∧ get_no_users buf = some (render_users n)) ∧
    (∀ (buf : List Nat) (i : Nat),
        i < buf.length / UTMP_SIZE → i * UTMP_SIZE < buf.length) := by
  constructor
  · intro buf
    refine ⟨count_sessions_idx buf, count_sessions_eq_idx buf, ?_⟩
    rw [get_no_users, count_sessions_eq_idx, Option.map_some']
  · intro buf i hi
    simp only [UTMP_SIZE] at *
    omega

set_option maxRecDepth 4000 in
/-- Witness for C10 at a concrete 384-byte buffer and index 0. -/
theorem C10_count_sessions_total_witness :
    (0 : Nat) * UTMP_SIZE < (List.replicate 384 (0 : Nat)).length :=
  C10_count_sessions_total.2 (List.replicate 384 0) 0 (by decide)

/-! ## Claim C2 -/

/-- C2 counterexample: on the empty buffer the count is 0 and the rendered
string is `"0 user"`, not `"0 users"` as the claim states. -/
theorem C2_render_counterexample :
    get_no_users [] = some "0 user" ∧ get_no_users [] ≠ some "0 users" := by
  constructor
  · decide
  · decide

/-- C2 amended: the rendering layer produces `"N users"` when the count N
is greater than 1 and `"N user"` when N ≤ 1; in particular a count of 0
renders as `"0 user"` (not `"0 users"`). -/
theorem C2_render_users_amended :
    ∀ (buf : List Nat) (n : Nat), count_sessions buf = some n →
      get_no_users buf = some (toString n ++ if n ≤ 1 then " user" else " users") := by
  intro buf n h
  rw [get_no_users, h, Option.map_some']
  unfold render_users
  by_cases h1 : n > 1
  · rw [if_pos h1, if_neg (by omega)]
  · rw [if_neg h1, if_pos (by omega)]

/-- Witness for the amended C2 at the empty buffer (count 0). -/
theorem C2_render_users_amended_witness :
    get_no_users [] = some (toString (0 : Nat) ++ if (0 : Nat) ≤ 1 then " user" else " users") :=
  C2_render_users_amended [] 0 (by decide)

/-! ## Elapsed-time decomposition lemmas -/

/-- `Int.tdiv` of a natural number cast by the literal 86400 is the cast
of the natural division. -/
lemma tdiv_cast_86400 (m : Nat) : Int.tdiv (m : Int) 86400 = ((m / 86400 : Nat) : Int) :=
  rfl

/-- `Int.tdiv` of a natural number cast by the literal 3600. -/
lemma tdiv_cast_3600 (m : Nat) : Int.tdiv (m : Int) 3600 = ((m / 3600 : Nat) : Int) :=
  rfl

/-- `Int.tdiv` of a natural number cast by the literal 60. -/
lemma tdiv_cast_60 (m : Nat) : Int.tdiv (m : Int) 60 = ((m / 60 : Nat) : Int) :=
  rfl

/-! ## Claim C3 -/

/-- C3: for every total_seconds ≥ 0 the derived ElapsedTime fields satisfy
days = ⌊total/86400⌋, hours = ⌊(total mod 86400)/3600⌋,
minutes = ⌊(total mod 3600)/60⌋, and
days·86400 + hours·3600 + minutes·60 ≤ total < days·86400 + hours·3600 + (minutes+1)·60. -/
theorem C3_elapsed_decomposition :
    ∀ n : Nat,
      uptime_days (n : Int) = ((n / 86400 : Nat) : Int) ∧
      uptime_hours (n : Int) = ((n % 86400 / 3600 : Nat) : Int) ∧
      uptime_minutes (n : Int) = ((n % 3600 / 60 : Nat) : Int) ∧
      uptime_days (n : Int) * 86400 + uptime_hours (n : Int) * 3600
          + uptime_minutes (n : Int) * 60 ≤ (n : Int) ∧
      (n : Int) < uptime_days (n : Int) * 86400 + uptime_hours (n : Int) * 3600
          + (uptime_minutes (n : Int) + 1) * 60 := by
  intro n
  have hd : uptime_days (n : Int) = ((n / 86400 : Nat) : Int) :=
    tdiv_cast_86400 n
  have hh : uptime_hours (n : Int) = ((n / 3600 : Nat) : Int) - ((n / 86400 : Nat) : Int) * 24 := by
    rw [uptime_hours, hd, tdiv_cast_3600 n]
  have hm : uptime_minutes (n : Int)
      = ((n / 60 : Nat) : Int) - uptime_hours (n : Int) * 60 - ((n / 86400 : Nat) : Int) * 1440 := by
    rw [uptime_minutes, hd, tdiv_cast_60 n]
  refine ⟨hd, ?_, ?_, ?_, ?_⟩ <;> omega

/-! ## Claim C9 -/

/-- C9: `format_uptime` is deterministic — identical ElapsedTime and mode
inputs yield identical output strings (it is a pure function of its
explicit inputs). -/
theorem C9_format_uptime_deterministic :
    ∀ (t1 t2 : ElapsedTime) (k1 k2 : UptimeFormat),
      t1 = t2 → k1 = k2 → format_uptime t1 k1 = format_uptime t2 k2 := by
  intro t1 t2 k1 k2 ht hk
  rw [ht, hk]

/-- Witness for C9 at a concrete ElapsedTime and mode. -/
theorem C9_format_uptime_deterministic_witness :
    format_uptime ⟨0, 0, 5⟩ UptimeFormat.Normal = format_uptime ⟨0, 0, 5⟩ UptimeFormat.Normal :=
  C9_format_uptime_deterministic ⟨0, 0, 5⟩ ⟨0, 0, 5⟩ UptimeFormat.Normal UptimeFormat.Normal rfl rfl

/-! ## Claim C6 -/

/-- C6: the hours/minutes phrase of `format_uptime` is, in Normal (the
spec's Compact) mode, `"<minutes> min"` when hours == 0 and otherwise
`"<hours>:<minutes zero-padded to 2 digits>"`; in Pretty (the spec's
Verbose) mode, `"<minutes> minutes"` when hours == 0 and otherwise
`"<hours> hours, <minutes> minutes"`; and
`format_uptime {days:2,hours:3,minutes:7} Pretty = "2 days, 3 hours, 7 minutes"`. -/
theorem C6_hm_phrase_cases :
    (∀ t : ElapsedTime,
      (t.hours = 0 → format_uptime t UptimeFormat.Normal
          = days_part t.days ++ (toString t.minutes ++ " min")) ∧
      (t.hours ≠ 0 → format_uptime t UptimeFormat.Normal
          = days_part t.days ++ (toString t.hours ++ ":" ++ pad2 (toString t.minutes))) ∧
      (t.hours = 0 → format_uptime t UptimeFormat.Pretty
          = days_part t.days ++ (toString t.minutes ++ " minutes")) ∧
      (t.hours ≠ 0 → format_uptime t UptimeFormat.Pretty
          = days_part t.days
            ++ (toString t.hours ++ " hours, " ++ toString t.minutes ++ " minutes"))) ∧
    format_uptime ⟨2, 3, 7⟩ UptimeFormat.Pretty = "2 days, 3 hours, 7 minutes" ∧
    format_uptime ⟨0, 3, 7⟩ UptimeFormat.Normal = "3:07" ∧
    format_uptime ⟨0, 3, 45⟩ UptimeFormat.Normal = "3:45" ∧
    format_uptime ⟨0, 0, 5⟩ UptimeFormat.Normal = "5 min" := by
  refine ⟨fun t => ⟨?_, ?_, ?_, ?_⟩, by decide, by decide, by decide, by decide⟩ <;>
    intro h <;> unfold format_uptime hm_phrase <;> simp [h]

/-- Witness for C6 at ElapsedTime {0,3,7} in Normal mode. -/
theorem C6_hm_phrase_cases_witness :
    format_uptime ⟨0, 3, 7⟩ UptimeFormat.Normal
      = days_part 0 ++ (toString (3 : Int) ++ ":" ++ pad2 (toString (7 : Int))) :=
  (C6_hm_phrase_cases.1 ⟨0, 3, 7⟩).2.1 (by decide)

/-! ## Claim C7 -/

/-- C7: `format_uptime` in either mode prefixes the hours/minutes phrase
with `"<days> day, "` when days == 1 and `"<days> days, "` when days > 0
and days ≠ 1, and omits the prefix when days == 0; in particular
`format_uptime {days:1,hours:0,minutes:0} Normal = "1 day, 0 min"`. -/
theorem C7_days_part_cases :
    (∀ (t : ElapsedTime) (kind : UptimeFormat),
      (t.days = 1 →
        format_uptime t kind = toString t.days ++ " day, " ++ hm_phrase t kind) ∧
      (0 < t.days → t.days ≠ 1 →
        format_uptime t kind = toString t.days ++ " days, " ++ hm_phrase t kind) ∧
      (t.days = 0 → format_uptime t kind = hm_phrase t kind)) ∧
    format_uptime ⟨1, 0, 0⟩ UptimeFormat.Normal = "1 day, 0 min" := by
  have hday : (" " ++ "day, " : String) = " day, " := rfl
  have hdays : (" " ++ "days, " : String) = " days, " := rfl
  refine ⟨fun t kind => ⟨?_, ?_, ?_⟩, by decide⟩
  · intro h1
    unfold format_uptime days_part
    rw [if_pos (by omega), if_pos h1, String.append_assoc (toString t.days) " " "day, ", hday]
  · intro hpos hne
    unfold format_uptime days_part
    rw [if_pos hpos, if_neg hne, String.append_assoc (toString t.days) " " "days, ", hdays]
  · intro h0
    unfold format_uptime days_part
    rw [if_neg (by omega)]
    simp

/-- Witness for C7 at ElapsedTime {1,2,3} in Pretty mode. -/
theorem C7_days_part_cases_witness :
    format_uptime ⟨1, 2, 3⟩ UptimeFormat.Pretty
      = toString (1 : Int) ++ " day, " ++ hm_phrase ⟨1, 2, 3⟩ UptimeFormat.Pretty :=
  (C7_days_part_cases.1 ⟨1, 2, 3⟩ UptimeFormat.Pretty).1 (by decide)

/-! ## Tokenisation and parsing lemmas -/

/-- With no tokens, the collected first token is the empty string. -/
lemma firstToken_nil (s : String) (h : splitWhitespace s = []) : firstToken s = "" := by
  unfold firstToken
  rw [h]
  rfl

/-- With at least one token, the collected first token is that token. -/
lemma firstToken_cons (s t : String) (ts : List String)
    (h : splitWhitespace s = t :: ts) : firstToken s = t := by
  unfold firstToken
  rw [h]
  show String.join [t] = t
  simp [String.join]

/-- `get_uptime` depends only on the first whitespace-delimited token. -/
lemma get_uptime_head_congr (s1 s2 : String)
    (h : (splitWhitespace s1).head? = (splitWhitespace s2).head?) :
    get_uptime s1 = get_uptime s2 := by
  unfold get_uptime
  cases h1 : splitWhitespace s1 with
  | nil =>
    cases h2 : splitWhitespace s2 with
    | nil => rw [firstToken_nil s1 h1, firstToken_nil s2 h2]
    | cons u us => rw [h1, h2] at h; simp at h
  | cons t ts =>
    cases h2 : splitWhitespace s2 with
    | nil => rw [h1, h2] at h; simp at h
    | cons u us =>
      rw [h1, h2] at h
      simp only [List.head?_cons, Option.some_inj] at h
      rw [firstToken_cons s1 t ts h1, firstToken_cons s2 u us h2, h]

/-- The denominator produced by the binary64 rounding is a power of two,
hence positive. -/
lemma roundPosF64_den_pos (a b : Nat) (p : Nat × Nat)
    (h : roundPosF64 a b = some p) : 0 < p.2 := by
  simp only [roundPosF64] at h
  split at h
  · rw [Option.some_inj] at h
    rw [← h]
    decide
  · split at h
    · exact absurd h (by simp)
    · split at h
      · rw [Option.some_inj] at h
        rw [← h]
        exact Nat.pos_pow_of_pos _ (by norm_num)
      · split at h
        · exact absurd h (by simp)
        · split at h <;> rw [Option.some_inj] at h <;> rw [← h]
          · simp
          · exact Nat.pos_pow_of_pos _ (by norm_num)

/-- The denominator of a finite double returned by `parse_f64` is a power
of two, hence positive. -/
lemma parse_f64_finite_den_pos (s : String) (n : Int) (d : Nat)
    (h : parse_f64 s = some (F64.finite n d)) : 0 < d := by
  simp only [parse_f64] at h
  split at h
  · rw [Option.some_inj] at h
    split at h <;> simp at h
  · split at h
    · rw [Option.some_inj] at h
      simp at h
    · split at h
      · exact absurd h (by simp)
      · split at h
        · exact absurd h (by simp)
        · split at h
          · rw [Option.some_inj] at h
            split at h <;> simp at h
          · rename_i pq hround
            rw [Option.some_inj, F64.finite.injEq] at h
            rw [← h.2]
            exact roundPosF64_den_pos _ _ _ hround

/-- `Int.tdiv` truncates toward zero: characterization on nonnegative
dividends. -/
lemma tdiv_char_nonneg (n : Int) (d : Nat) (hd : 0 < d) (hn : 0 ≤ n) :
    Int.tdiv n d * d ≤ n ∧ n < (Int.tdiv n d + 1) * d := by
  have hdz : (0 : Int) < (d : Int) := by exact_mod_cast hd
  have he := Int.tdiv_add_tmod n (d : Int)
  have h1 : 0 ≤ Int.tmod n d := Int.tmod_nonneg _ hn
  have h2 : Int.tmod n d < d := Int.tmod_lt_of_pos n hdz
  constructor <;> nlinarith [he, h1, h2]

/-- `Int.tdiv` truncates toward zero: characterization on nonpositive
dividends. -/
lemma tdiv_char_nonpos (n : Int) (d : Nat) (hd : 0 < d) (hn : n ≤ 0) :
    (Int.tdiv n d - 1) * d < n ∧ n ≤ Int.tdiv n d * d := by
  have hneg : Int.tdiv n d = -(Int.tdiv (-n) d) := by
    rw [← Int.neg_tdiv (-n) (d : Int), neg_neg]
  have hch := tdiv_char_nonneg (-n) d hd (by omega)
  rw [hneg]
  constructor <;> nlinarith [hch.1, hch.2]

/-- With at least three tokens, `get_loadavg` returns the first three
joined with `", "`. -/
lemma get_loadavg_tokens (s t0 t1 t2 : String) (rest : List String)
    (h : splitWhitespace s = t0 :: t1 :: t2 :: rest) :
    get_loadavg s = some (t0 ++ ", " ++ t1 ++ ", " ++ t2) := by
  unfold get_loadavg
  rw [h]
  rfl

/-! ## Claim C8 -/

/-- C8: for every input with at least three whitespace-delimited tokens,
`get_loadavg` returns exactly the first three tokens verbatim, in order,
joined by `", "`, with no numeric validation; in particular
`get_loadavg "0.15 0.20 0.10 2/300 1234" = some "0.15, 0.20, 0.10"`. -/
theorem C8_parse_loadavg_first_three :
    (∀ (s t0 t1 t2 : String) (rest : List String),
      splitWhitespace s = t0 :: t1 :: t2 :: rest →
      get_loadavg s = some (t0 ++ ", " ++ t1 ++ ", " ++ t2)) ∧
    get_loadavg "0.15 0.20 0.10 2/300 1234" = some "0.15, 0.20, 0.10" :=
  ⟨get_loadavg_tokens, by decide⟩

/-- Witness for C8 at a concrete four-token input. -/
theorem C8_parse_loadavg_first_three_witness :
    get_loadavg "a b c d" = some ("a" ++ ", " ++ "b" ++ ", " ++ "c") :=
  C8_parse_loadavg_first_three.1 "a b c d" "a" "b" "c" ["d"] (by decide)

/-! ## Claim C5 -/

set_option maxRecDepth 1000000 in
/-- C5 counterexample: `"1e16"` is a valid number (its parse succeeds,
yielding exactly the double 10^16), yet `get_uptime` neither returns a
`ParseError` nor succeeds: it panics inside `chrono::Duration::seconds`
because 10^16 seconds exceeds the chrono `Duration` bounds. -/
theorem C5_error_counterexample :
    parse_f64 (firstToken "1e16") = some (F64.finite (10 ^ 16) 1) ∧
    get_uptime "1e16" ≠ UptimeResult.parseError ∧
    get_uptime "1e16" = UptimeResult.panicked :=
  ⟨by decide, by decide, by decide⟩

/-- C5 amended: `get_uptime` returns a `ParseError` exactly when the first
whitespace-delimited token is missing or is not a valid number; on a valid
number it succeeds when the truncated value lies within the chrono
`Duration` seconds range ±(i64::MAX/1000) and panics inside
`chrono::Duration::seconds` otherwise.  The parse is the only `ParseError`
path in the core: `get_loadavg` succeeds whenever three tokens exist, and
`get_no_users` always succeeds. -/
theorem C5_parse_error_taxonomy_amended :
    (∀ s : String, get_uptime s = UptimeResult.parseError ↔
        ((splitWhitespace s).head? = none ∨
          ∃ t, (splitWhitespace s).head? = some t ∧ parse_f64 t = none)) ∧
    (∀ (s : String) (v : F64),
        parse_f64 (firstToken s) = some v →
        -CHRONO_MAX_SECS ≤ f64_to_i64 v → f64_to_i64 v ≤ CHRONO_MAX_SECS →
        get_uptime s = UptimeResult.ok (f64_to_i64 v)) ∧
    (∀ (s t0 t1 t2 : String) (rest : List String),
        splitWhitespace s = t0 :: t1 :: t2 :: rest →
        ∃ out, get_loadavg s = some out) ∧
    (∀ buf : List Nat, ∃ out, get_no_users buf = some out) := by
  refine ⟨?_, ?_, ?_, ?_⟩
  · intro s
    unfold get_uptime
    cases hsp : splitWhitespace s with
    | nil =>
      rw [firstToken_nil s hsp]
      have hempty : parse_f64 "" = none := by decide
      rw [hempty]
      simp
    | cons t ts =>
      rw [firstToken_cons s t ts hsp]
      cases hv : parse_f64 t with
      | none => simp [hv]
      | some v =>
        cases hD : Duration_seconds (f64_to_i64 v) with
        | none => simp [hv, hD]
        | some secs => simp [hv, hD]
  · intro s v hp h1 h2
    simp only [get_uptime, hp]
    have hD : Duration_seconds (f64_to_i64 v) = some (f64_to_i64 v) := by
      unfold Duration_seconds
      rw [if_neg]
      push_neg
      exact ⟨h1, h2⟩
    rw [hD]
  · intro s t0 t1 t2 rest h
    exact ⟨_, get_loadavg_tokens s t0 t1 t2 rest h⟩
  · intro buf
    exact ⟨_, by rw [get_no_users, count_sessions_eq_idx, Option.map_some']⟩

set_option maxRecDepth 1000000 in
/-- Witness for the amended C5: on `"60"` (the double 60 exactly,
in range) `get_uptime` succeeds with the truncated value. -/
theorem C5_parse_error_taxonomy_amended_witness :
    get_uptime "60" = UptimeResult.ok (f64_to_i64 (F64.finite (60 * 2 ^ 47) (2 ^ 47))) :=
  C5_parse_error_taxonomy_amended.2.1 "60" (F64.finite (60 * 2 ^ 47) (2 ^ 47))
    (by decide) (by decide) (by decide)

/-! ## Claim C4 -/

set_option maxRecDepth 1000000 in
/-- C4 counterexample: `"1e16"` parses to exactly the double 10^16, whose
truncation toward zero is 10^16 whole seconds, but the program panics
inside `chrono::Duration::seconds` (10^16 exceeds i64::MAX/1000 seconds)
instead of producing that ElapsedTime. -/
theorem C4_truncation_counterexample :
    parse_f64 (firstToken "1e16") = some (F64.finite ((10 : Int) ^ 16) 1) ∧
    Int.tdiv ((10 : Int) ^ 16) 1 = (10 : Int) ^ 16 ∧
    get_uptime "1e16" = UptimeResult.panicked ∧
    get_uptime "1e16" ≠ UptimeResult.ok ((10 : Int) ^ 16) :=
  ⟨by decide, by decide, by decide, by decide⟩

set_option maxRecDepth 1000000 in
/-- C4 amended: `get_uptime` reads only the first whitespace-delimited
token, parses it as a floating-point number and truncates it toward zero
to whole seconds, ignoring all remaining content — provided the truncated
value lies within the chrono `Duration` seconds range ±(i64::MAX/1000);
outside that range the program panics in `chrono::Duration::seconds`
instead of returning.  `get_uptime "3725.5 123.45"` yields 3725 seconds,
which decomposes to days 0, hours 1, minutes 2. -/
theorem C4_parse_uptime_amended :
    (∀ s1 s2 : String, (splitWhitespace s1).head? = (splitWhitespace s2).head? →
        get_uptime s1 = get_uptime s2) ∧
    (∀ (s : String) (n : Int) (d : Nat) (z : Int),
        parse_f64 (firstToken s) = some (F64.finite n d) →
        get_uptime s = UptimeResult.ok z →
        z = Int.tdiv n d ∧
        (0 ≤ n → z * d ≤ n ∧ n < (z + 1) * d) ∧
        (n ≤ 0 → (z - 1) * d < n ∧ n ≤ z * d)) ∧
    (∀ (s : String) (v : F64),
        parse_f64 (firstToken s) = some v →
        (f64_to_i64 v < -CHRONO_MAX_SECS ∨ CHRONO_MAX_SECS < f64_to_i64 v) →
        get_uptime s = UptimeResult.panicked) ∧
    (get_uptime "3725.5 123.45" = UptimeResult.ok 3725 ∧
      uptime_days 3725 = 0 ∧ uptime_hours 3725 = 1 ∧ uptime_minutes 3725 = 2) := by
  refine ⟨get_uptime_head_congr, ?_, ?_, by decide, by decide, by decide, by decide⟩
  · intro s n d z hp hu
    have hd : 0 < d := parse_f64_finite_den_pos _ _ _ hp
    simp only [get_uptime, hp] at hu
    cases hD : Duration_seconds (f64_to_i64 (F64.finite n d)) with
    | none =>
      rw [hD] at hu
      simp at hu
    | some secs =>
      rw [hD] at hu
      simp only [UptimeResult.ok.injEq] at hu
      unfold Duration_seconds at hD
      split at hD
      · exact absurd hD (by simp)
      · rename_i hrange
        rw [Option.some_inj] at hD
        push_neg at hrange
        have hz : z = max (-(2 ^ 63)) (min (2 ^ 63 - 1) (Int.tdiv n d)) := by
          rw [← hu, ← hD]
          rfl
        have h63 : (2 : Int) ^ 63 = 9223372036854775808 := by norm_num
        have hzr1 : -CHRONO_MAX_SECS ≤ z := by
          rw [← hu, ← hD]
          exact hrange.1
        have hzr2 : z ≤ CHRONO_MAX_SECS := by
          rw [← hu, ← hD]
          exact hrange.2
        unfold CHRONO_MAX_SECS at hzr1 hzr2
        have hz2 : z = Int.tdiv n d := by
          rcases max_choice (-(2 : Int) ^ 63) (min ((2 : Int) ^ 63 - 1) (Int.tdiv n d))
            with hmax | hmax <;> rw [hmax] at hz
          · rw [h63] at hz
            omega
          · rcases min_choice ((2 : Int) ^ 63 - 1) (Int.tdiv n d)
              with hmin | hmin <;> rw [hmin] at hz
            · rw [h63] at hz
              omega
            · exact hz
        refine ⟨hz2, fun hn => ?_, fun hn => ?_⟩
        · rw [hz2]
          exact tdiv_char_nonneg n d hd hn
        · rw [hz2]
          exact tdiv_char_nonpos n d hd hn
  · intro s v hp hout
    simp only [get_uptime, hp]
    have hD : Duration_seconds (f64_to_i64 v) = none := by
      unfold Duration_seconds
      rw [if_pos hout]
    rw [hD]

set_option maxRecDepth 1000000 in
/-- Witness for the amended C4 at input `"3725.5"`: the parsed double is
exactly 3725.5 = (7451·2^40)/2^41, and the returned 3725 seconds is its
truncation toward zero. -/
theorem C4_parse_uptime_amended_witness :
    (3725 : Int) = Int.tdiv (7451 * 2 ^ 40) ((2 ^ 41 : Nat) : Int) ∧
    (0 ≤ (7451 * 2 ^ 40 : Int) →
      (3725 : Int) * ((2 ^ 41 : Nat) : Int) ≤ 7451 * 2 ^ 40 ∧
      (7451 * 2 ^ 40 : Int) < ((3725 : Int) + 1) * ((2 ^ 41 : Nat) : Int)) ∧
    ((7451 * 2 ^ 40 : Int) ≤ 0 →
      ((3725 : Int) - 1) * ((2 ^ 41 : Nat) : Int) < 7451 * 2 ^ 40 ∧
      (7451 * 2 ^ 40 : Int) ≤ (3725 : Int) * ((2 ^ 41 : Nat) : Int)) :=
  C4_parse_uptime_amended.2.1 "3725.5" (7451 * 2 ^ 40) (2 ^ 41) 3725
    (by decide) (by decide)
